import Mathlib

/-!
Verification development for the term-ai interactive chat client.

The definitions below are a shallow embedding of the Go sources:
- internal/context/manager.go   (transcript store: Load / Save)
- internal/chat/chat.go         (session state machine: Update, streamResponse)
- internal/chat/commands.go     (suggestion filtering: updateSuggestions)
- internal/provider (OpenAICompatible.Stream line loop)
- internal/config (FileConfig)

Go strings are modelled as Lean String; the byte/char distinction is
irrelevant for the inputs considered here.  File-system access is modelled
by a map from paths to optional file contents.  All definitions are
executable structural recursions so concrete runs reduce in the kernel.
-/

namespace TermAI

/-! ## String helpers: models of the Go standard-library operations used -/

/-- Model of strings.HasPrefix s p (p is a prefix of s). -/
def strStartsWith (s p : String) : Bool :=
  p.data.isPrefixOf s.data

/-- Model of strings.HasSuffix s suff. -/
def strEndsWith (s suff : String) : Bool :=
  suff.data.isSuffixOf s.data

/-- Split a character stream at newline characters, like bufio.ScanLines:
no trailing empty token is produced for a trailing newline. -/
def splitLinesAux (cur : List Char) : List Char → List (List Char)
  | [] => if cur.isEmpty then [] else [cur.reverse]
  | c :: rest =>
    if c = '\n' then cur.reverse :: splitLinesAux [] rest
    else splitLinesAux (c :: cur) rest

/-- bufio.ScanLines also strips one trailing carriage return from each line. -/
def stripCR (l : List Char) : List Char :=
  if l.getLast? = some '\r' then l.dropLast else l

/-- Model of reading a file line by line with bufio.Scanner (ScanLines split). -/
def scanLines (s : String) : List String :=
  (splitLinesAux [] s.data).map (fun l => String.mk (stripCR l))

/-- Helper for strings.SplitN(s, sep, 2): find the first occurrence of sep,
returning the part before it and the part after it. -/
def splitFirstAux (sep : List Char) (acc : List Char) : List Char → Option (List Char × List Char)
  | [] => none
  | c :: rest =>
    if sep.isPrefixOf (c :: rest) then some (acc.reverse, (c :: rest).drop sep.length)
    else splitFirstAux sep (c :: acc) rest

/-- Model of strings.SplitN(s, sep, 2) in the case where it yields two parts;
none when sep does not occur in s (Go would yield a single part). -/
def splitTwo (sep s : String) : Option (String × String) :=
  match splitFirstAux sep.data [] s.data with
  | some (a, b) => some (String.mk a, String.mk b)
  | none => none

/-- Model of bytes.TrimSpace / strings.TrimSpace. -/
def trimSpace (s : String) : String :=
  String.mk (((s.data.dropWhile Char.isWhitespace).reverse.dropWhile Char.isWhitespace).reverse)

/-! ## Data model (internal/provider types)

Modelled from the spec: the provider message/role declarations
(provider.RoleUser, provider.RoleAssistant, provider.RoleSystem,
provider.ContextRole) are not among the sources under src/; §3 and §6 of
the spec fix the roles to the strings system / user / assistant, matching
their use in the serialization format. -/

def RoleUser : String := "user"

def RoleAssistant : String := "assistant"

def RoleSystem : String := "system"

/-- provider.Message: role-tagged message with optional image data URLs. -/
structure Message where
  role : String
  content : String
  images : List String
deriving DecidableEq, Repr

/-- provider.StreamChunk, with the Go error field modelled as Option String. -/
structure StreamChunk where
  content : String
  thinking : String
  done : Bool
  error : Option String
deriving DecidableEq, Repr

/-! ## Transcript store (internal/context/manager.go) -/

/-- Modelled from the spec: config.ConversationFileExt is declared in a
config file absent from src/; the comment on Manager.Save names the
".termai.md" extension (spec §6: required file extension enforced). -/
def ConversationFileExt : String := ".termai.md"

/-- manager.go: msgSeparator = strings.Repeat("-", 50) + "\n".
Note the trailing newline is part of the value. -/
def msgSeparator : String := String.mk (List.replicate 50 '-') ++ "\n"

/-- context.Manager: the in-memory transcript. -/
structure Manager where
  messages : List Message
deriving DecidableEq, Repr

/-- One record as written by Manager.Save:
file.WriteString(string(msg.Role) + ": " + msg.Content + "\n" + msgSeparator). -/
def serializeMessage (m : Message) : String :=
  m.role ++ ": " ++ m.content ++ "\n" ++ msgSeparator

/-- The byte stream Manager.Save writes for a message list. -/
def saveContent (msgs : List Message) : String :=
  String.join (msgs.map serializeMessage)

/-- The scanner loop of Manager.Load over the scanned lines.
The accumulator is some (role, body) while the inner loop of Load is
consuming continuation lines of an open record, none while the outer
loop is looking for the next "role: body" line. -/
def parseLines : Option (String × String) → List String → List Message
  | none, [] => []
  | some (r, b), [] => [⟨r, b, []⟩]
  | some (r, b), line :: rest =>
    if line = msgSeparator then ⟨r, b, []⟩ :: parseLines none rest
    else parseLines (some (r, b ++ "\n" ++ line)) rest
  | none, line :: rest =>
    if line = msgSeparator then parseLines none rest
    else
      match splitTwo ": " line with
      | some (r, b) => parseLines (some (r, b)) rest
      | none => parseLines none rest

/-- Manager.Load: extension check, existence check, then tolerant parse.
The file system is a map from paths to optional contents.  The Go method
mutates the receiver and returns an error; here it returns the new
manager and the optional error message. -/
def Manager.Load (fs : String → Option String) (m : Manager) (filePath : String) :
    Manager × Option String :=
  if strEndsWith filePath ConversationFileExt = false then
    (m, some ("Invalid file path: " ++ filePath))
  else
    match fs filePath with
    | none => (m, some ("Conversation file does not exist: " ++ filePath))
    | some content => (⟨parseLines none (scanLines content)⟩, none)

/-- Manager.Save first ensures the conversation-file extension on the path. -/
def savePathOf (filePath : String) : String :=
  if strEndsWith filePath ConversationFileExt = false then filePath ++ ConversationFileExt
  else filePath

/-- Manager.Save: creates the file when absent, otherwise opens it with
O_APPEND and writes every record after the existing contents.  Returns
the path written and the resulting file contents. -/
def Manager.Save (fs : String → Option String) (m : Manager) (filePath : String) :
    String × String :=
  let p := savePathOf filePath
  match fs p with
  | none => (p, saveContent m.messages)
  | some old => (p, old ++ saveContent m.messages)

/-! ## File attachments and configuration -/

/-- fileprocessor.FileAttachment: ftype is the Go Type field, one of
"image", "pdf", "text", "code". -/
structure FileAttachment where
  name : String
  ftype : String
  content : String
  path : String
deriving DecidableEq, Repr

/-- config.FileConfig (unnamed config source): files.* options, among them
auto_clear_after_send, documented as clearing attached files after a
message is sent when (and only when) it is true. -/
structure FileConfig where
  maxFileSize : Int
  autoClearAfterSend : Bool
  includeContextInEveryMsg : Bool
deriving DecidableEq, Repr

/-! ## Session state machine (internal/chat/chat.go) -/

/-- The external UI formatting collaborators used by chatModel
(ui.FormatUserMessage, ui.AssistantStyle.Render, ui.FormatError,
ui.FormatResponse, ui.FormatSeparator).  They only produce display
strings; the engine is parametric in them. -/
structure UIFormat where
  formatUserMessage : String → String
  assistantLabel : String
  assistantLabelDone : String
  formatError : String → String
  formatResponse : String → Option String
  formatSeparator : String

/-- The engine-relevant fields of chatModel.  The display list messages,
the context manager, the streaming flag, the accumulated response, the
presence of a live stream channel, the attachment sets and the
suggestion state are carried; purely visual fields (viewport, styles)
are external.  textValue models textarea.Value(). -/
structure ChatModel where
  messages : List String
  ctxMessages : List Message
  streaming : Bool
  currentResp : String
  streamChanOpen : Bool
  err : Option String
  attachedFiles : List FileAttachment
  contextFiles : List FileAttachment
  textValue : String
  suggestions : List String
  selectedSuggestion : Int
  showSuggestions : Bool
  chatPath : String
deriving DecidableEq, Repr

/-- Replace the last element of a list (Go: messages[len(messages)-1] = s),
guarded by the caller's len > 0 check. -/
def setLast (l : List String) (s : String) : List String :=
  l.dropLast ++ [s]

/-- The streamMsg case of chatModel.Update: one stream chunk is applied to
the model.  ch is whether the event carried a non-nil channel. -/
def applyChunk (ui : UIFormat) (m : ChatModel) (ch : Bool) (c : StreamChunk) : ChatModel :=
  let m0 := if ch then { m with streamChanOpen := true } else m
  match c.error with
  | some e =>
    { m0 with
      err := some e, streaming := false, streamChanOpen := false,
      messages := m0.messages ++ [ui.formatError e] }
  | none =>
    let m1 :=
      if c.content = "" then m0
      else
        let m1a : ChatModel := { m0 with currentResp := m0.currentResp ++ c.content }
        if 0 < m1a.messages.length then
          { m1a with messages := setLast m1a.messages (ui.assistantLabel ++ m1a.currentResp) }
        else m1a
    if c.done then
      let m2 : ChatModel := { m1 with
        streaming := false, streamChanOpen := false,
        ctxMessages := m1.ctxMessages ++ [Message.mk RoleAssistant m1.currentResp []],
        attachedFiles := [] }
      let formatted :=
        match ui.formatResponse m2.currentResp with
        | some f => f
        | none => m2.currentResp
      let m3 :=
        if 0 < m2.messages.length then
          { m2 with messages := setLast m2.messages (ui.assistantLabelDone ++ formatted) }
        else m2
      { m3 with messages := m3.messages ++ ["", ui.formatSeparator] }
    else m1

/-- Fold a chunk sequence through the model, all events carrying a channel. -/
def applyChunks (ui : UIFormat) (m : ChatModel) (cs : List StreamChunk) : ChatModel :=
  cs.foldl (fun acc c => applyChunk ui acc true c) m

/-- The Alt+Enter / Ctrl+Enter submission path of chatModel.Update.
hc is the command dispatcher (commandHandler.handle) for inputs starting
with a slash.  The Bool result is whether a completion stream command was
issued (m.streamResponse()). -/
def handleSubmit (ui : UIFormat) (hc : ChatModel → String → ChatModel) (m : ChatModel) :
    ChatModel × Bool :=
  if m.streaming then (m, false)
  else
    let userMsg := trimSpace m.textValue
    if userMsg = "" then (m, false)
    else if strStartsWith userMsg "/" then (hc m userMsg, false)
    else
      let m1 : ChatModel := { m with
        messages := m.messages ++ ["", ui.formatUserMessage userMsg, ""],
        ctxMessages := m.ctxMessages ++ [Message.mk RoleUser userMsg []],
        textValue := "" }
      let m2 : ChatModel := { m1 with
        streaming := true, currentResp := "",
        messages := m1.messages ++ [ui.assistantLabel] }
      (m2, true)

/-! ## Attachment merge (chatModel.streamResponse, chat.go) -/

/-- chat.go: the wrapped text block appended for one non-image attachment. -/
def attachmentBlock (f : FileAttachment) : String :=
  "\n\n--- Content from " ++ f.name ++ " ---\n" ++ f.content ++ "\n--- End of " ++ f.name ++ " ---"

/-- The loop over allFiles in streamResponse: collect image contents and
the concatenated text blocks, in attachment order. -/
def collectFiles : List FileAttachment → List String × String
  | [] => ([], "")
  | f :: rest =>
    let (imgs, txt) := collectFiles rest
    if f.ftype = "image" then (f.content :: imgs, txt)
    else if f.ftype = "pdf" ∨ f.ftype = "text" ∨ f.ftype = "code" then
      (imgs, attachmentBlock f ++ txt)
    else (imgs, txt)

/-- The message-list transformation done by streamResponse before calling
provider.Stream: when attachments exist and the message list is nonempty,
the last message gets the text blocks appended to its content and, when
images are present, its image list set. -/
def mergeMessages (attached ctxF : List FileAttachment) (msgs : List Message) : List Message :=
  if (0 < attached.length ∨ 0 < ctxF.length) ∧ 0 < msgs.length then
    let allFiles := attached ++ ctxF
    let last := msgs.getLastD ⟨"", "", []⟩
    let collected := collectFiles allFiles
    let newLast : Message :=
      { last with content := last.content ++ collected.2,
                  images := if 0 < collected.1.length then collected.1 else last.images }
    msgs.dropLast ++ [newLast]
  else msgs

/-- The merge-and-start step of streamResponse.  In Go,
messages := m.ctxManager.GetMessages() aliases the manager's slice and the
merge writes through lastMsg into it, so the stored transcript ends up
holding the merged messages; the returned list is what is sent to the
provider. -/
def mergeStep (m : ChatModel) : ChatModel × List Message :=
  let merged := mergeMessages m.attachedFiles m.contextFiles m.ctxMessages
  ({ m with ctxMessages := merged }, merged)

/-! ## Auto-completion (chatModel.updateSuggestions, commands.go, and the
suggestion-navigation key handling in chatModel.Update, chat.go) -/

/-- chatModel.updateSuggestions: refilter the suggestion list from the
current input buffer against the declared command table. -/
def updateSuggestions (commands : List String) (m : ChatModel) : ChatModel :=
  let input := m.textValue
  if strStartsWith input "/" = false then
    { m with showSuggestions := false, suggestions := [], selectedSuggestion := 0 }
  else
    let found := commands.filter (fun cmd => strStartsWith cmd input)
    if 0 < found.length then
      { m with
        showSuggestions := true, suggestions := found,
        selectedSuggestion :=
          if (found.length : Int) ≤ m.selectedSuggestion then 0 else m.selectedSuggestion }
    else
      { m with showSuggestions := false, suggestions := [], selectedSuggestion := 0 }

/-- The events of one Update call that touch the suggestion state.  Each
event carries the textarea value after m.textarea.Update(msg) ran, since
Update always refreshes the textarea first.  paste events skip the
refiltering (the isPaste fast path); every other event refilters via
updateSuggestions before the key switch runs. -/
inductive ChatEvent where
  | paste (ta : String)
  | editKey (ta : String)
  | keyNext (ta : String)
  | keyPrev (ta : String)
  | keyAccept (ta : String)

/-- One step of the suggestion part of chatModel.Update.  The navigation
branches run only under the guard showSuggestions && len(suggestions) > 0,
exactly as in chat.go. -/
def stepSuggestions (commands : List String) (m : ChatModel) : ChatEvent → ChatModel
  | ChatEvent.paste ta => { m with textValue := ta }
  | ChatEvent.editKey ta => updateSuggestions commands { m with textValue := ta }
  | ChatEvent.keyNext ta =>
    let m1 := updateSuggestions commands { m with textValue := ta }
    if m1.showSuggestions ∧ 0 < m1.suggestions.length then
      { m1 with selectedSuggestion := (m1.selectedSuggestion + 1) % (m1.suggestions.length : Int) }
    else m1
  | ChatEvent.keyPrev ta =>
    let m1 := updateSuggestions commands { m with textValue := ta }
    if m1.showSuggestions ∧ 0 < m1.suggestions.length then
      let dec := m1.selectedSuggestion - 1
      { m1 with
        selectedSuggestion := if dec < 0 then (m1.suggestions.length : Int) - 1 else dec }
    else m1
  | ChatEvent.keyAccept ta =>
    let m1 := updateSuggestions commands { m with textValue := ta }
    if m1.showSuggestions ∧ 0 < m1.suggestions.length then
      { m1 with
        textValue := m1.suggestions.getD m1.selectedSuggestion.toNat "",
        showSuggestions := false, suggestions := [], selectedSuggestion := 0 }
    else m1

/-- The initial suggestion state set up by NewChatModel: empty suggestion
list, nothing shown, index zero. -/
def initialModel : ChatModel :=
  { messages := [], ctxMessages := [], streaming := false, currentResp := "",
    streamChanOpen := false, err := none, attachedFiles := [], contextFiles := [],
    textValue := "", suggestions := [], selectedSuggestion := 0,
    showSuggestions := false, chatPath := "" }

/-- States of the suggestion machine reachable from the initial model by
suggestion-relevant events. -/
inductive ReachableSugg (commands : List String) : ChatModel → Prop
  | init : ReachableSugg commands initialModel
  | next (m : ChatModel) (e : ChatEvent) :
      ReachableSugg commands m → ReachableSugg commands (stepSuggestions commands m e)

/-- The bounds invariant for the suggestion selection index. -/
def SuggInv (m : ChatModel) : Prop :=
  0 ≤ m.selectedSuggestion ∧
    (m.showSuggestions = true →
      m.selectedSuggestion < (m.suggestions.length : Int) ∧ 0 < m.suggestions.length)

/-! ## Stream reader (provider OpenAICompatible.Stream, unnamed source) -/

/-- The delta object inside one streamed choice. -/
structure Delta where
  content : String
  thinking : String
deriving DecidableEq, Repr

/-- One element of the choices array of a stream response line. -/
structure SChoice where
  delta : Delta
  finishReason : Option String
deriving DecidableEq, Repr

/-- The JSON object carried by one data: line. -/
structure StreamResponse where
  choices : List SChoice
deriving DecidableEq, Repr

/-- A finished-stream chunk (StreamChunk{Done: true}). -/
def doneChunk : StreamChunk := ⟨"", "", true, none⟩

/-- The "data: " marker. -/
def dataMark : String := "data: "

/-- Whether a trimmed line carries the data marker. -/
def hasDataMark (s : String) : Bool := strStartsWith s dataMark

/-- bytes.TrimPrefix for the 6-character data marker. -/
def dropDataMark (s : String) : String := String.mk (s.data.drop 6)

/-- The reader goroutine of OpenAICompatible.Stream over the sequence of
lines read from the response body, parameterised by the JSON decoding of
a line's payload into a streamResponse (none models a json.Unmarshal
error, which the loop skips).  Produces the chunk list sent on the
channel; reaching the end of the list models io.EOF. -/
def streamLines (parse : String → Option StreamResponse) : List String → List StreamChunk
  | [] => []
  | line :: rest =>
    let l := trimSpace line
    if l.data.length = 0 then streamLines parse rest
    else if hasDataMark l = false then streamLines parse rest
    else
      let data := dropDataMark l
      if data = "[DONE]" then [doneChunk]
      else
        match parse data with
        | none => streamLines parse rest
        | some sr =>
          match sr.choices with
          | [] => streamLines parse rest
          | c :: _ =>
            let emitted :=
              if c.delta.content = "" ∧ c.delta.thinking = "" then []
              else [StreamChunk.mk c.delta.content c.delta.thinking false none]
            match c.finishReason with
            | some _ => emitted ++ [doneChunk]
            | none => emitted ++ streamLines parse rest

/-- The check on the initial HTTP response in OpenAICompatible.Stream:
a non-200 status aborts with an error carrying the response body. -/
def streamInit (status : Nat) (body : String) : Except String Unit :=
  if status ≠ 200 then
    Except.error ("API error (status " ++ toString status ++ "): " ++ body)
  else Except.ok ()

/-! ### Specification-side reformulation of the stream reader (spec §6
wire contract, used to state the C6 refinement): lines are classified
independently; the chunks are the per-line contributions concatenated in
line order up to and including the first terminating line. -/

/-- Chunks contributed by a single line according to the spec: blank and
unmarked lines contribute nothing, the sentinel contributes nothing by
itself (termination is handled separately), and a decoded JSON line
contributes its content/thinking delta as one chunk when it has one. -/
def lineChunks (parse : String → Option StreamResponse) (line : String) : List StreamChunk :=
  let l := trimSpace line
  if l.data.length = 0 then []
  else if hasDataMark l = false then []
  else
    let data := dropDataMark l
    if data = "[DONE]" then []
    else
      match parse data with
      | none => []
      | some sr =>
        match sr.choices with
        | [] => []
        | c :: _ =>
          if c.delta.content = "" ∧ c.delta.thinking = "" then []
          else [StreamChunk.mk c.delta.content c.delta.thinking false none]

/-- Whether a line terminates the stream according to the spec: the
literal sentinel, or a decoded JSON line whose first choice carries a
finish marker. -/
def lineTerminates (parse : String → Option StreamResponse) (line : String) : Bool :=
  let l := trimSpace line
  if l.data.length = 0 then false
  else if hasDataMark l = false then false
  else
    let data := dropDataMark l
    if data = "[DONE]" then true
    else
      match parse data with
      | none => false
      | some sr =>
        match sr.choices with
        | [] => false
        | c :: _ => c.finishReason.isSome

/-- Spec-side chunk sequence: per-line contributions in the exact order
the lines appear, cut off after the first terminating line, which also
produces the final chunk; nothing is reordered or dropped. -/
def specStream (parse : String → Option StreamResponse) : List String → List StreamChunk
  | [] => []
  | line :: rest =>
    if lineTerminates parse line then lineChunks parse line ++ [doneChunk]
    else lineChunks parse line ++ specStream parse rest

/-! ## Concrete instances used in witnesses and counterexamples -/

/-- A trivial instantiation of the UI formatting collaborators. -/
def uiTriv : UIFormat :=
  { formatUserMessage := fun s => s, assistantLabel := "Assistant: ",
    assistantLabelDone := "Assistant:\n", formatError := fun s => s,
    formatResponse := fun _ => none, formatSeparator := "" }

/-- A trivial command dispatcher (never reached in the witnesses below). -/
def hcTriv : ChatModel → String → ChatModel := fun m _ => m

/-- The command table of the C9 scenario. -/
def cmds5 : List String := ["/context", "/context-add", "/context-remove", "/clear", "/cp"]

/-- A plain text attachment. -/
def fileA : FileAttachment := ⟨"a.txt", "text", "FILEDATA", "/tmp/a.txt"⟩

/-- A session state that is mid-stream with one attached file. -/
def mStreaming : ChatModel :=
  { initialModel with
    streaming := true, currentResp := "Hi", attachedFiles := [fileA],
    messages := ["Assistant: "] }

/-- A session state about to start a stream: one user message, one text
attachment. -/
def mPreMerge : ChatModel :=
  { initialModel with
    ctxMessages := [Message.mk RoleUser "hi" []], attachedFiles := [fileA] }

/-- The 50-dash line without the trailing newline, as it appears in a
scanned line. -/
def dashes : String := String.mk (List.replicate 50 '-')

/-- The file system after saving one message to the fresh path
/chats/c.termai.md. -/
def fsOneSave : String → Option String :=
  fun p =>
    if p = "/chats/c.termai.md"
    then some ((Manager.mk [Message.mk "user" "hello" []]).Save (fun _ => none) "/chats/c.termai.md").2
    else none

/-- The suggestion scenario of C9: typing /co, then next, next, previous,
then accepting. -/
def sugg0 : ChatModel := stepSuggestions cmds5 initialModel (ChatEvent.editKey "/co")

/-- Scenario state after one next key. -/
def sugg1 : ChatModel := stepSuggestions cmds5 sugg0 (ChatEvent.keyNext "/co")

/-- Scenario state after a second next key. -/
def sugg2 : ChatModel := stepSuggestions cmds5 sugg1 (ChatEvent.keyNext "/co")

/-- Scenario state after one previous key. -/
def sugg3 : ChatModel := stepSuggestions cmds5 sugg2 (ChatEvent.keyPrev "/co")

/-- Scenario state after accepting the selected suggestion. -/
def sugg4 : ChatModel := stepSuggestions cmds5 sugg3 (ChatEvent.keyAccept "/co")

end TermAI

namespace TermAI

/-! ## Theorems -/

/-! ### C1: save/load round trip -/

/-- C1: the round-trip law fails on the code.  Saving the one-message
transcript [(user, "hello")] to a fresh path and loading it back yields a
single message whose body has absorbed the separator line: msgSeparator
carries a trailing newline, scanner lines never do, so the separator
comparisons in Manager.Load (manager.go lines 143 and 153) never match
and the whole remainder of the file is folded into the first message. -/
theorem save_load_roundtrip_violated :
    (Manager.mk [Message.mk "user" "hello" []]).Load fsOneSave "/chats/c.termai.md"
      = (Manager.mk [Message.mk "user" ("hello\n" ++ dashes) []], none)
    ∧ [Message.mk "user" ("hello\n" ++ dashes) []] ≠ [Message.mk "user" "hello" []] := by
  constructor
  · rfl
  · decide

/-! ### C2: save overwrites a pre-existing file -/

/-- C2 counterexample: Manager.Save opens an existing file with O_APPEND,
so with prior contents "OLD" at the path the resulting file is not the
serialization of the transcript alone: the old contents survive as a
prefix. -/
theorem save_keeps_old_contents :
    ((Manager.mk [Message.mk "user" "hi" []]).Save
        (fun p => if p = "/chats/c.termai.md" then some "OLD" else none)
        "/chats/c.termai.md").2
      ≠ saveContent [Message.mk "user" "hi" []]
    ∧ strStartsWith
        ((Manager.mk [Message.mk "user" "hi" []]).Save
          (fun p => if p = "/chats/c.termai.md" then some "OLD" else none)
          "/chats/c.termai.md").2 "OLD" = true := by
  constructor
  · decide
  · decide

/-- C2 amended: when a file exists at the (extension-completed) path, save
appends the serialization after the existing contents, and only when no
file exists does the file contain exactly the serialization. -/
theorem save_appends_to_existing :
    (∀ (fs : String → Option String) (m : Manager) (path old : String),
        fs (savePathOf path) = some old →
        (m.Save fs path).2 = old ++ saveContent m.messages) ∧
    (∀ (fs : String → Option String) (m : Manager) (path : String),
        fs (savePathOf path) = none →
        (m.Save fs path).2 = saveContent m.messages) := by
  constructor
  · intro fs m path old h
    simp [Manager.Save, h]
  · intro fs m path h
    simp [Manager.Save, h]

/-- Witness for save_appends_to_existing at a concrete file system. -/
theorem save_appends_to_existing_witness :
    ((Manager.mk [Message.mk "user" "hi" []]).Save
        (fun p => if p = "/chats/c.termai.md" then some "OLD" else none)
        "/chats/c.termai.md").2
      = "OLD" ++ saveContent [Message.mk "user" "hi" []] := by
  exact save_appends_to_existing.1
    (fun p => if p = "/chats/c.termai.md" then some "OLD" else none)
    (Manager.mk [Message.mk "user" "hi" []]) "/chats/c.termai.md" "OLD" (by decide)

/-! ### C4: submission is a no-op while streaming -/

/-- C4: while the streaming flag is set, the submit path of
chatModel.Update returns the model unchanged and issues no stream
command: the transcript is untouched and no second completion is started. -/
theorem streaming_submit_noop (ui : UIFormat) (hc : ChatModel → String → ChatModel)
    (m : ChatModel) (h : m.streaming = true) :
    handleSubmit ui hc m = (m, false) := by
  simp [handleSubmit, h]

/-- Witness: a concrete mid-stream model with pending input. -/
theorem streaming_submit_noop_witness :
    handleSubmit uiTriv hcTriv { mStreaming with textValue := "new question" }
      = ({ mStreaming with textValue := "new question" }, false) := by
  exact streaming_submit_noop uiTriv hcTriv { mStreaming with textValue := "new question" } rfl

/-! ### C7: ephemeral attachments on stream completion -/

/-- C7: on the final chunk the attached files are cleared unconditionally
(chat.go line 218 sets attachedFiles to nil); the files.auto_clear_after_send
configuration option (FileConfig.autoClearAfterSend) is never consulted by
the chat engine, so the attachments are emptied even for a session whose
configuration has auto-clear disabled.  Evaluated here at a mid-stream
model holding one attachment; applyChunk takes no configuration at all. -/
theorem done_clears_attachments_unconditionally :
    (applyChunk uiTriv mStreaming true doneChunk).attachedFiles = []
    ∧ (applyChunk uiTriv mStreaming true doneChunk).streaming = false
    ∧ (applyChunk uiTriv mStreaming true doneChunk).ctxMessages
        = [Message.mk RoleAssistant "Hi" []]
    ∧ mStreaming.attachedFiles = [fileA] := by
  refine ⟨rfl, rfl, rfl, rfl⟩

/-! ### C8: load failure modes leave the transcript unchanged -/

/-- C8: Manager.Load fails whenever the path lacks the conversation-file
extension or the file does not exist, leaving the in-memory transcript
unchanged in either case; when both checks pass the transcript is
replaced by the parsed sequence. -/
theorem load_checks_then_replaces :
    (∀ (fs : String → Option String) (m : Manager) (path : String),
        strEndsWith path ConversationFileExt = false →
        (m.Load fs path).1 = m ∧ (m.Load fs path).2.isSome = true) ∧
    (∀ (fs : String → Option String) (m : Manager) (path : String),
        fs path = none →
        (m.Load fs path).1 = m ∧ (m.Load fs path).2.isSome = true) ∧
    (∀ (fs : String → Option String) (m : Manager) (path content : String),
        strEndsWith path ConversationFileExt = true →
        fs path = some content →
        m.Load fs path = (Manager.mk (parseLines none (scanLines content)), none)) := by
  refine ⟨?_, ?_, ?_⟩
  · intro fs m path h
    simp [Manager.Load, h]
  · intro fs m path h
    by_cases hx : strEndsWith path ConversationFileExt = false
    · simp [Manager.Load, hx]
    · simp [Manager.Load, hx, h]
  · intro fs m path content hext h
    simp [Manager.Load, hext, h]

/-- Witness for load_checks_then_replaces: wrong extension, missing file,
and a successful load, all at concrete inputs. -/
theorem load_checks_then_replaces_witness :
    (((Manager.mk []).Load (fun _ => none) "/chats/c.txt").1 = Manager.mk []
      ∧ ((Manager.mk []).Load (fun _ => none) "/chats/c.txt").2.isSome = true)
    ∧ (((Manager.mk []).Load (fun _ => none) "/chats/c.termai.md").1 = Manager.mk []
      ∧ ((Manager.mk []).Load (fun _ => none) "/chats/c.termai.md").2.isSome = true)
    ∧ (Manager.mk [Message.mk "user" "x" []]).Load
        (fun p => if p = "/chats/c.termai.md" then some "user: ok" else none)
        "/chats/c.termai.md"
      = (Manager.mk (parseLines none (scanLines "user: ok")), none) := by
  refine ⟨?_, ?_, ?_⟩
  · exact load_checks_then_replaces.1 (fun _ => none) (Manager.mk []) "/chats/c.txt" (by decide)
  · exact load_checks_then_replaces.2.1 (fun _ => none) (Manager.mk []) "/chats/c.termai.md" rfl
  · exact load_checks_then_replaces.2.2
      (fun p => if p = "/chats/c.termai.md" then some "user: ok" else none)
      (Manager.mk [Message.mk "user" "x" []]) "/chats/c.termai.md" "user: ok" (by decide) (by decide)

/-! ### C3: the attachment merge before starting a stream -/

/-- C3 counterexample: the merge-and-start step is not idempotent.  From a
state with one user message and one text attachment, running the step a
second time (a retry from the post-first-run session, since the first run
wrote through the shared slice into the context manager) produces a
different outgoing message list: the attachment block is appended twice. -/
theorem merge_retry_changes_outgoing :
    (mergeStep (mergeStep mPreMerge).1).2 ≠ (mergeStep mPreMerge).2 := by
  decide

/-- Helper: the merge never changes the number of messages. -/
theorem mergeMessages_length (a c : List FileAttachment) (msgs : List Message) :
    (mergeMessages a c msgs).length = msgs.length := by
  unfold mergeMessages
  split
  · rename_i hcond
    simp only [List.length_append, List.length_dropLast, List.length_cons, List.length_nil]
    omega
  · rfl

/-- Helper: with attachments present and a nonempty message list, the last
merged message's content is the old last content with the collected text
blocks appended. -/
theorem mergeMessages_last_content (a c : List FileAttachment) (msgs : List Message)
    (h1 : 0 < msgs.length) (h2 : 0 < a.length ∨ 0 < c.length) :
    ((mergeMessages a c msgs).getLastD (Message.mk "" "" [])).content
      = (msgs.getLastD (Message.mk "" "" [])).content ++ (collectFiles (a ++ c)).2 := by
  unfold mergeMessages
  rw [if_pos ⟨h2, h1⟩]
  rw [List.getLastD_concat]

/-- C3 amended: the merge is deterministic and leaves the attachment
records themselves unchanged, but it stores the merged list back into the
context manager (GetMessages aliases the manager's slice and streamResponse
writes through it), so a second run starts from the merged transcript and
appends every text attachment's wrapped block a second time to the final
outgoing message. -/
theorem merge_deterministic_but_mutating (m : ChatModel)
    (h1 : 0 < m.ctxMessages.length)
    (h2 : 0 < m.attachedFiles.length ∨ 0 < m.contextFiles.length) :
    (mergeStep m).1.attachedFiles = m.attachedFiles
    ∧ (mergeStep m).1.contextFiles = m.contextFiles
    ∧ (mergeStep m).1.ctxMessages = (mergeStep m).2
    ∧ ((mergeStep (mergeStep m).1).2.getLastD (Message.mk "" "" [])).content
        = ((mergeStep m).2.getLastD (Message.mk "" "" [])).content
          ++ (collectFiles (m.attachedFiles ++ m.contextFiles)).2 := by
  refine ⟨rfl, rfl, rfl, ?_⟩
  show ((mergeMessages m.attachedFiles m.contextFiles
      (mergeMessages m.attachedFiles m.contextFiles m.ctxMessages)).getLastD
        (Message.mk "" "" [])).content = _
  rw [mergeMessages_last_content m.attachedFiles m.contextFiles
    (mergeMessages m.attachedFiles m.contextFiles m.ctxMessages)
    (by rw [mergeMessages_length]; exact h1) h2]
  rfl

/-- Witness for merge_deterministic_but_mutating at the concrete pre-merge
state with one user message and one text attachment. -/
theorem merge_deterministic_but_mutating_witness :
    (mergeStep mPreMerge).1.attachedFiles = mPreMerge.attachedFiles
    ∧ (mergeStep mPreMerge).1.contextFiles = mPreMerge.contextFiles
    ∧ (mergeStep mPreMerge).1.ctxMessages = (mergeStep mPreMerge).2
    ∧ ((mergeStep (mergeStep mPreMerge).1).2.getLastD (Message.mk "" "" [])).content
        = ((mergeStep mPreMerge).2.getLastD (Message.mk "" "" [])).content
          ++ (collectFiles (mPreMerge.attachedFiles ++ mPreMerge.contextFiles)).2 := by
  exact merge_deterministic_but_mutating mPreMerge (by decide) (by decide)

/-! ### C5: deltas applied in order and committed exactly once -/

/-- C5: from any model whose accumulated response is empty, processing the
chunks "Hel", "lo" and the final marker appends exactly one assistant
message with text "Hello" to the transcript and ends the streaming state. -/
theorem stream_deltas_committed_once (ui : UIFormat) (m : ChatModel)
    (h : m.currentResp = "") :
    (applyChunks ui m
        [StreamChunk.mk "Hel" "" false none, StreamChunk.mk "lo" "" false none, doneChunk]).ctxMessages
      = m.ctxMessages ++ [Message.mk RoleAssistant "Hello" []]
    ∧ (applyChunks ui m
        [StreamChunk.mk "Hel" "" false none, StreamChunk.mk "lo" "" false none, doneChunk]).streaming
      = false := by
  simp only [applyChunks, List.foldl, applyChunk, doneChunk]
  simp [h]
  constructor <;> (repeat' split) <;> rfl

/-- Witness: the chunk sequence applied to a fresh streaming model. -/
theorem stream_deltas_committed_once_witness :
    (applyChunks uiTriv { mStreaming with currentResp := "" }
        [StreamChunk.mk "Hel" "" false none, StreamChunk.mk "lo" "" false none, doneChunk]).ctxMessages
      = { mStreaming with currentResp := "" }.ctxMessages ++ [Message.mk RoleAssistant "Hello" []]
    ∧ (applyChunks uiTriv { mStreaming with currentResp := "" }
        [StreamChunk.mk "Hel" "" false none, StreamChunk.mk "lo" "" false none, doneChunk]).streaming
      = false := by
  exact stream_deltas_committed_once uiTriv { mStreaming with currentResp := "" } rfl

/-! ### C9: auto-completion filtering and navigation -/

/-- Helper: updateSuggestions on a slash-led input stores exactly the
command table filtered by case-sensitive prefix match, in declaration
order. -/
theorem updateSuggestions_filter (commands : List String) (m : ChatModel) (s : String)
    (h : strStartsWith s "/" = true) :
    (updateSuggestions commands { m with textValue := s }).suggestions
      = commands.filter (fun cmd => strStartsWith cmd s) := by
  unfold updateSuggestions
  simp only [h]
  simp only [Bool.true_eq_false, if_false]
  split
  · rfl
  · rename_i hlen
    have hnil : commands.filter (fun cmd => strStartsWith cmd s) = [] := by
      rcases hf : commands.filter (fun cmd => strStartsWith cmd s) with _ | ⟨a, l⟩
      · rfl
      · exfalso
        apply hlen
        rw [hf]
        simp
    simp [hnil]

/-- C9: the suggestion list always equals the declared command table
filtered by case-sensitive prefix match in declaration order, and in the
concrete scenario of the spec (commands /context, /context-add,
/context-remove, /clear, /cp; input "/co") the three /context* commands
are suggested in declaration order, next-next-previous selects the second
match, and accepting replaces the input buffer verbatim and closes the
list. -/
theorem suggestion_filter_and_navigation :
    (∀ (commands : List String) (m : ChatModel) (s : String),
        strStartsWith s "/" = true →
        (updateSuggestions commands { m with textValue := s }).suggestions
          = commands.filter (fun cmd => strStartsWith cmd s)) ∧
    sugg0.suggestions = ["/context", "/context-add", "/context-remove"] ∧
    sugg0.showSuggestions = true ∧
    sugg0.selectedSuggestion = 0 ∧
    sugg1.selectedSuggestion = 1 ∧
    sugg2.selectedSuggestion = 2 ∧
    sugg3.selectedSuggestion = 1 ∧
    sugg4.textValue = "/context-add" ∧
    sugg4.showSuggestions = false ∧
    sugg4.suggestions = [] := by
  refine ⟨updateSuggestions_filter, ?_, ?_, ?_, ?_, ?_, ?_, ?_, ?_, ?_⟩ <;> decide

/-- Witness for the quantified part of suggestion_filter_and_navigation. -/
theorem suggestion_filter_and_navigation_witness :
    (updateSuggestions cmds5 { initialModel with textValue := "/co" }).suggestions
      = cmds5.filter (fun cmd => strStartsWith cmd "/co") := by
  exact suggestion_filter_and_navigation.1 cmds5 initialModel "/co" (by decide)

/-! ### C10: the selection index stays in bounds -/

/-- Helper: refiltering establishes the bounds invariant, given only that
the incoming index is non-negative. -/
theorem updateSuggestions_inv (commands : List String) (m : ChatModel)
    (h : 0 ≤ m.selectedSuggestion) : SuggInv (updateSuggestions commands m) := by
  unfold SuggInv
  simp only [updateSuggestions]
  split
  · simp
  · split
    · rename_i hpos
      constructor
      · simp only
        split
        · omega
        · exact h
      · intro _
        simp only
        refine ⟨?_, hpos⟩
        split
        · exact_mod_cast hpos
        · rename_i hle
          omega
    · simp

/-- Helper: bounds for the decrement-with-wrap index update. -/
theorem wrapDec_bounds (sel len : Int) (h0 : 0 ≤ sel) (h1 : sel < len) (_hp : 0 < len) :
    (0 ≤ if sel - 1 < 0 then len - 1 else sel - 1)
    ∧ (if sel - 1 < 0 then len - 1 else sel - 1) < len := by
  constructor <;> split <;> omega

/-- Helper: every suggestion-relevant event of chatModel.Update preserves
the bounds invariant. -/
theorem stepSuggestions_inv (commands : List String) (m : ChatModel) (e : ChatEvent)
    (h : SuggInv m) : SuggInv (stepSuggestions commands m e) := by
  cases e with
  | paste ta => exact ⟨h.1, h.2⟩
  | editKey ta => exact updateSuggestions_inv commands { m with textValue := ta } h.1
  | keyNext ta =>
    have hu := updateSuggestions_inv commands { m with textValue := ta } h.1
    simp only [stepSuggestions]
    split
    · rename_i hg
      have hb := hu.2 hg.1
      refine ⟨?_, fun _ => ⟨?_, hb.2⟩⟩
      · exact Int.emod_nonneg _ (by exact_mod_cast Nat.pos_iff_ne_zero.mp hb.2)
      · exact Int.emod_lt_of_pos _ (by exact_mod_cast hb.2)
    · exact hu
  | keyPrev ta =>
    have hu := updateSuggestions_inv commands { m with textValue := ta } h.1
    simp only [stepSuggestions]
    split
    · rename_i hg
      have hb := hu.2 hg.1
      have hw := wrapDec_bounds
        (updateSuggestions commands { m with textValue := ta }).selectedSuggestion
        ((updateSuggestions commands { m with textValue := ta }).suggestions.length : Int)
        hu.1 hb.1 (by exact_mod_cast hb.2)
      exact ⟨hw.1, fun _ => ⟨hw.2, hb.2⟩⟩
    · exact hu
  | keyAccept ta =>
    have hu := updateSuggestions_inv commands { m with textValue := ta } h.1
    simp only [stepSuggestions]
    split
    · exact ⟨Int.le_refl 0, fun hfalse => Bool.noConfusion hfalse⟩
    · exact hu

/-- C10: in every reachable session state the suggestion-selection index
is non-negative and, whenever the suggestion list is shown, strictly less
than its length, so indexing the list at the selected index is always in
bounds. -/
theorem suggestion_index_always_in_bounds (commands : List String) (m : ChatModel)
    (h : ReachableSugg commands m) : SuggInv m := by
  induction h with
  | init =>
    refine ⟨Int.le_refl 0, fun hfalse => ?_⟩
    simp [initialModel] at hfalse
  | next m1 e hr ih => exact stepSuggestions_inv commands m1 e ih

/-- Witness: the invariant at the initial model, via reachability. -/
theorem suggestion_index_always_in_bounds_witness : SuggInv initialModel := by
  exact suggestion_index_always_in_bounds [] initialModel ReachableSugg.init

/-! ### C6: the stream reader over server-sent lines -/

/-- Helper: appending a string keeps the appended part as a suffix. -/
theorem strEndsWith_append (a b : String) : strEndsWith (a ++ b) b = true := by
  unfold strEndsWith
  rw [List.isSuffixOf_iff_suffix]
  show b.data <:+ (a ++ b).data
  rw [String.data_append]
  exact List.suffix_append a.data b.data

/-- Helper: the reader loop of OpenAICompatible.Stream produces exactly
the spec-side chunk sequence: per-line contributions in input-line order,
truncated at the first terminating line. -/
theorem streamLines_eq_specStream (parse : String → Option StreamResponse)
    (lines : List String) : streamLines parse lines = specStream parse lines := by
  induction lines with
  | nil => rfl
  | cons line rest ih =>
    simp only [streamLines, specStream, lineTerminates, lineChunks]
    by_cases h1 : (trimSpace line).length = 0
    · simp [h1, ih]
    · by_cases h2 : hasDataMark (trimSpace line) = false
      · simp [h1, h2, ih]
      · by_cases h3 : dropDataMark (trimSpace line) = "[DONE]"
        · simp [h1, h2, h3]
        · cases hp : parse (dropDataMark (trimSpace line)) with
          | none => simp [h1, h2, h3, hp, ih]
          | some sr =>
            cases hc : sr.choices with
            | nil => simp [h1, h2, h3, hp, hc, ih]
            | cons c cs =>
              cases hf : c.finishReason with
              | none => simp [h1, h2, h3, hp, hc, hf, ih]
              | some fr => simp [h1, h2, h3, hp, hc, hf]

/-- C6: the stream reader turns the response lines into chunks in input
order — blank and non-data lines ignored, each decoded data line
contributing its delta as one chunk, the [DONE] sentinel or a finish
marker producing the final chunk and terminating — and a non-2xx initial
response yields an error that carries the response body. -/
theorem stream_reader_contract :
    (∀ (parse : String → Option StreamResponse) (lines : List String),
        streamLines parse lines = specStream parse lines) ∧
    (∀ (status : Nat) (body : String), status ≠ 200 →
        streamInit status body
          = Except.error ("API error (status " ++ toString status ++ "): " ++ body)
        ∧ strEndsWith ("API error (status " ++ toString status ++ "): " ++ body) body = true) := by
  constructor
  · exact streamLines_eq_specStream
  · intro status body h
    constructor
    · simp [streamInit, h]
    · exact strEndsWith_append ("API error (status " ++ toString status ++ "): ") body

/-- Witness for stream_reader_contract: a concrete two-line stream and a
concrete 401 response. -/
theorem stream_reader_contract_witness :
    streamLines (fun _ => none) ["data: [DONE]", "ignored"]
        = specStream (fun _ => none) ["data: [DONE]", "ignored"]
    ∧ (streamInit 401 "denied"
          = Except.error ("API error (status " ++ toString 401 ++ "): " ++ "denied")
        ∧ strEndsWith ("API error (status " ++ toString 401 ++ "): " ++ "denied") "denied" = true) := by
  constructor
  · exact stream_reader_contract.1 (fun _ => none) ["data: [DONE]", "ignored"]
  · exact stream_reader_contract.2 401 "denied" (by decide)

end TermAI
